import Mathlib

/-!
# Verification of the discover-granules task

A shallow embedding of `src/tasks/discover-granules/index.js` (the granule
discovery and duplicate-resolution pipeline step) together with proofs of the
spec's claims about it.

Modelling conventions:

* A JavaScript regular expression supplied at runtime is modelled abstractly:
  the granule-id extraction pattern becomes a function `String → Option String`
  (`none` = no match, `some g` = first capturing group), and a collection file
  rule's pattern becomes a match test `String → Bool`.
* lodash `groupBy` coerces its keys to strings, so the key computed for a file
  with no match is the literal string `"null"`; the subsequent
  `delete result.null` removes that key.  `groupBy` builds a plain JS object,
  and plain objects enumerate integer-like keys (canonical base-10 numeric
  strings denoting an integer below 2^32 - 1) first, in ascending numeric
  order, and only then the remaining string keys in insertion
  (first-occurrence) order; `Object.keys`, lodash `map` and lodash `pick` all
  follow that enumeration.  `jsObjectKeys` below realises it, and each group
  keeps the in-order sublist of inputs with that key.
* Thrown JavaScript errors become `Except DiscoverError`.  `Promise.all` over
  the mapped lookups is deterministically embedded as a left-to-right join
  (`checkAll`): the first rejection in list position order is the one reported.
* The catalog (the Granules API behind `got.get`) is a parameter
  `Catalog : String → CatalogResponse`: a 2xx response is `success` (the
  granule exists), a 404 "Not Found" is `notFound`, everything else —
  transport failures and other statuses — is `failure msg`.
* The provider listing and the external `duplicateHandlingType` helper are
  out-of-scope collaborators; `discoverGranules` takes the listed files and
  the resolved duplicate-handling string as parameters.
* Observable side effects (the one credential/token fetch of
  `filterDuplicates` and the per-id catalog lookups) are tracked by parallel
  `…Effects` functions returning the list of effects the code would issue.
-/

/-- A discovered file.  The provider returns descriptors with a `name`; the
enrichment pass may later attach `bucket`, `url_path` and `type`.  Absent
properties are `none`. -/
structure File where
  name : String
  bucket : Option String := none
  url_path : Option String := none
  type : Option String := none
  deriving Repr, DecidableEq

/-- A collection file config entry (`collection.files[i]` in the JS config):
a match test standing for the entry's `regex`, the bucket key, and optional
`url_path` and `type`. -/
structure CollectionFileRule where
  regex : String → Bool
  bucket : String
  url_path : Option String := none
  type : Option String := none

/-- The `config.collection` object: the granule-id extraction pattern
(abstracted to "match and return the first capturing group"), the ordered
file-rule list, and the collection-level metadata and flags. -/
structure CollectionConfig where
  granuleIdExtraction : String → Option String
  files : List CollectionFileRule
  url_path : Option String := none
  dataType : String := ""
  version : String := ""
  ignoreFilesConfigForDiscovery : Option Bool := none

/-- The event config: the bucket lookup table (`buckets[key].name` becomes a
partial map from key to bucket name), the collection, and the top-level
ignore-file-rules flag.  `Option Bool` models "explicitly set to a boolean"
(`isBoolean` in the JS) versus absent/non-boolean. -/
structure Config where
  buckets : String → Option String
  collection : CollectionConfig
  ignoreFilesConfigForDiscovery : Option Bool := none

/-- An output granule. -/
structure Granule where
  granuleId : String
  dataType : String
  version : String
  files : List File
  deriving Repr, DecidableEq

/-- Errors thrown by the task. -/
inductive DiscoverError where
  /-- `Duplicate granule found for <id> …` under policy `error`. -/
  | duplicateGranule (granuleId : String)
  /-- A catalog lookup failure other than a clean 404 Not Found. -/
  | transport (msg : String)
  /-- `Invalid duplicate handling configuration encountered: <value>`. -/
  | invalidDuplicateHandling (value : String)
  /-- `buckets[key]` was `undefined`, so reading `.name` threw. -/
  | missingBucket (key : String)
  deriving Repr, DecidableEq

/-- Outcome of the catalog lookup `GET <baseUrl>/granules/<id>`. -/
inductive CatalogResponse where
  /-- 2xx: the granule exists in the catalog. -/
  | success
  /-- Status 404 with message `Not Found`: the granule is absent. -/
  | notFound
  /-- Any other failure: transport error or non-404 status. -/
  | failure (msg : String)
  deriving Repr, DecidableEq

/-- The external catalog, as observed through lookups. -/
def Catalog : Type := String → CatalogResponse

/-- Observable side effects of duplicate resolution. -/
inductive Effect where
  /-- The secret reads plus `getAuthToken` performed once by
  `filterDuplicates`. -/
  | credentialFetch
  /-- One `got.get` against the catalog for this granule id. -/
  | catalogLookup (granuleId : String)
  deriving Repr, DecidableEq

/-- JavaScript `a || b` specialised to an optional string on the left: an
absent value and the empty string are both falsy. -/
def jsOrStr (a : Option String) (b : String) : String :=
  match a with
  | some s => if s = "" then b else s
  | none => b

/-- `granuleIdOfFile` (index.js:49): apply the extraction pattern to the
file's name; the granule id is the first capturing group, or null (`none`)
when the name does not match. -/
def granuleIdOfFile (granuleIdRegex : String → Option String) (file : File) :
    Option String :=
  granuleIdRegex file.name

/-- The string key lodash `groupBy` computes for a file: the extracted id, or
the literal string `"null"` when extraction returned null. -/
def groupKeyOfFile (granuleIdRegex : String → Option String) (file : File) :
    String :=
  match granuleIdOfFile granuleIdRegex file with
  | some g => g
  | none => "null"

/-- The value of a base-10 digit list. -/
def natOfDigits (cs : List Char) : Nat :=
  cs.foldl (fun n c => n * 10 + (c.toNat - 48)) 0

/-- The numeric value of an integer-like object key (meaningful only on
digit strings, where array-index keys live). -/
def numOfKey (s : String) : Nat :=
  natOfDigits s.data

/-- Whether a string is a JS array index: a non-empty digit string with no
leading zero (the canonical base-10 representation), denoting an integer
below 2^32 - 1.  Plain objects enumerate such keys first, in ascending
numeric order. -/
def isArrayIndex (s : String) : Bool :=
  match s.data with
  | [] => false
  | c :: cs =>
    (c :: cs).all (fun ch => ch.isDigit)
      && (c ≠ '0' || cs.isEmpty)
      && natOfDigits (c :: cs) < 4294967295

/-- Insert a key into an (ascending) key list, by numeric value. -/
def insertKeyAsc (s : String) : List String → List String
  | [] => [s]
  | t :: ts =>
    if numOfKey s ≤ numOfKey t then s :: t :: ts else t :: insertKeyAsc s ts

/-- Insertion sort of keys by ascending numeric value. -/
def sortKeysAsc : List String → List String
  | [] => []
  | s :: ss => insertKeyAsc s (sortKeysAsc ss)

/-- The enumeration order of a plain JS object whose keys were assigned in
the given order: array-index keys in ascending numeric order first, then the
remaining keys in assignment order. -/
def jsObjectKeys (ks : List String) : List String :=
  sortKeysAsc (ks.filter isArrayIndex)
    ++ ks.filter (fun k => !(isArrayIndex k))

/-- First-occurrence-order deduplication of a key list. -/
def dedupKeys : List String → List String
  | [] => []
  | k :: ks => k :: (dedupKeys ks).filter (fun k' => k' ≠ k)

/-- lodash `groupBy`: a plain object whose keys were assigned in
first-occurrence order and are therefore enumerated in JS object key order
(array-index keys ascending first, then the rest in first-occurrence order),
each group holding the in-order sublist of inputs having that key. -/
def groupByKey (key : File → String) (files : List File) :
    List (String × List File) :=
  (jsObjectKeys (dedupKeys (files.map key))).map
    (fun k => (k, files.filter (fun f => key f = k)))

/-- `groupFilesByGranuleId` (index.js:68): group the files by extracted
granule id, then `delete result.null`. -/
def groupFilesByGranuleId (granuleIdRegex : String → Option String)
    (files : List File) : List (String × List File) :=
  (groupByKey (groupKeyOfFile granuleIdRegex) files).filter
    (fun p => p.1 ≠ "null")

/-- `getCollectionFileConfig` (index.js:83): the first rule whose pattern
matches the file's name, if any. -/
def getCollectionFileConfig (collectionFileConfigs : List CollectionFileRule)
    (file : File) : Option CollectionFileRule :=
  collectionFileConfigs.find? (fun r => r.regex file.name)

/-- `fileHasCollectionFileConfig` (index.js:94). -/
def fileHasCollectionFileConfig (collectionFileConfigs : List CollectionFileRule)
    (file : File) : Bool :=
  (getCollectionFileConfig collectionFileConfigs file).isSome

/-- `returnAllFiles` (index.js:111): the top-level flag when it is an explicit
boolean, else the collection-level flag when it is an explicit boolean, else
`false`. -/
def returnAllFiles (config : Config) : Bool :=
  match config.ignoreFilesConfigForDiscovery with
  | some b => b
  | none =>
    match config.collection.ignoreFilesConfigForDiscovery with
    | some b => b
    | none => false

/-- `updateFileFromCollectionFileConfig` (index.js:131): files without a
matching rule pass through; a matched file gains `bucket` (looked up from the
rule's bucket key — a missing key makes `buckets[key].name` throw), `url_path`
(rule's value, else collection default, else empty) and `type` (rule's value,
else empty). -/
def updateFileFromCollectionFileConfig (config : Config) (file : File) :
    Except DiscoverError File :=
  match getCollectionFileConfig config.collection.files file with
  | none => .ok file
  | some fileConfig =>
    match config.buckets fileConfig.bucket with
    | none => .error (.missingBucket fileConfig.bucket)
    | some bucketName =>
      .ok { file with
            bucket := some bucketName
            url_path := some (jsOrStr fileConfig.url_path
              (jsOrStr config.collection.url_path ""))
            type := some (jsOrStr fileConfig.type "") }

/-- `Array.prototype.map` over `updateFileFromCollectionFileConfig`: a thrown
error aborts the whole map. -/
def updateAll (config : Config) : List File → Except DiscoverError (List File)
  | [] => .ok []
  | f :: fs => do
    let f' ← updateFileFromCollectionFileConfig config f
    let fs' ← updateAll config fs
    pure (f' :: fs')

/-- `buildGranule` (index.js:154): in pass-through mode the group's files are
returned unchanged; otherwise files without a matching rule are filtered out
and the rest enriched. -/
def buildGranule (config : Config) (files : List File) (granuleId : String) :
    Except DiscoverError Granule := do
  let filesToReturn ←
    if returnAllFiles config then
      pure files
    else
      updateAll config
        (files.filter (fileHasCollectionFileConfig config.collection.files))
  pure { granuleId := granuleId
         dataType := config.collection.dataType
         version := config.collection.version
         files := filesToReturn }

/-- `checkDuplicate` (index.js:187): a 404 Not Found means no duplicate and
the id is returned; any other lookup failure is rethrown; a successful lookup
means a duplicate exists — under policy `error` that throws, otherwise the
empty string is returned. -/
def checkDuplicate (catalog : Catalog) (duplicateHandling : String)
    (granuleId : String) : Except DiscoverError String :=
  match catalog granuleId with
  | .notFound => .ok granuleId
  | .failure msg => .error (.transport msg)
  | .success =>
    if duplicateHandling = "error" then
      .error (.duplicateGranule granuleId)
    else
      .ok ""

/-- `Promise.all` over the per-id `checkDuplicate` promises, embedded
deterministically: results in input order, first rejection (in list position
order) wins. -/
def checkAll (catalog : Catalog) (duplicateHandling : String) :
    List String → Except DiscoverError (List String)
  | [] => .ok []
  | g :: gs => do
    let r ← checkDuplicate catalog duplicateHandling g
    let rs ← checkAll catalog duplicateHandling gs
    pure (r :: rs)

/-- `filterDuplicates` (index.js:216): check every id against the catalog and
keep the truthy (non-empty) results.  The credential fetch it performs is
tracked by `filterDuplicatesEffects`. -/
def filterDuplicates (catalog : Catalog) (granuleIds : List String)
    (duplicateHandling : String) : Except DiscoverError (List String) := do
  let filteredKeys ← checkAll catalog duplicateHandling granuleIds
  pure (filteredKeys.filter (fun s => s ≠ ""))

/-- The side effects `filterDuplicates` issues: one credential/token fetch,
then one catalog lookup per id (all lookups are started before the join). -/
def filterDuplicatesEffects (granuleIds : List String) : List Effect :=
  Effect.credentialFetch :: granuleIds.map Effect.catalogLookup

/-- lodash `pick`: the requested keys present in `m` are assigned in request
order into a fresh plain object, which is then enumerated in JS object key
order again. -/
def pick (m : List (String × List File)) (keys : List String) :
    List (String × List File) :=
  (jsObjectKeys keys).filterMap
    (fun k => (m.find? (fun p => p.1 = k)).map (fun p => (k, p.2)))

/-- `handleDuplicates` (index.js:258): under `skip`/`error` restrict the
grouped map to the keys surviving `filterDuplicates`; under
`replace`/`version` return it unchanged; otherwise throw the
invalid-configuration error. -/
def handleDuplicates (catalog : Catalog) (filesByGranuleId : List (String × List File))
    (duplicateHandling : String) :
    Except DiscoverError (List (String × List File)) :=
  if duplicateHandling = "skip" ∨ duplicateHandling = "error" then do
    let filteredKeys ← filterDuplicates catalog
      (filesByGranuleId.map Prod.fst) duplicateHandling
    pure (pick filesByGranuleId filteredKeys)
  else if duplicateHandling = "replace" ∨ duplicateHandling = "version" then
    .ok filesByGranuleId
  else
    .error (.invalidDuplicateHandling duplicateHandling)

/-- The side effects `handleDuplicates` issues: those of `filterDuplicates`
when duplicate checking is active, none otherwise. -/
def handleDuplicatesEffects (filesByGranuleId : List (String × List File))
    (duplicateHandling : String) : List Effect :=
  if duplicateHandling = "skip" ∨ duplicateHandling = "error" then
    filterDuplicatesEffects (filesByGranuleId.map Prod.fst)
  else
    []

/-- lodash `map` over the kept object with `buildGranule(config)` (called as
`iteratee(value, key)`); a thrown error aborts the whole map. -/
def buildAll (config : Config) :
    List (String × List File) → Except DiscoverError (List Granule)
  | [] => .ok []
  | p :: ps => do
    let g ← buildGranule config p.2 p.1
    let gs ← buildAll config ps
    pure (g :: gs)

/-- `discoverGranules` (index.js:280), parameterised by the externally listed
files and the externally resolved duplicate-handling mode: classify, resolve
duplicates, enrich, emit. -/
def discoverGranules (catalog : Catalog) (config : Config)
    (duplicateHandling : String) (discoveredFiles : List File) :
    Except DiscoverError (List Granule) := do
  let filesByGranuleId := groupFilesByGranuleId
    config.collection.granuleIdExtraction discoveredFiles
  let kept ← handleDuplicates catalog filesByGranuleId duplicateHandling
  buildAll config kept

/-- The per-file function the enrichment pass computes when file rules apply:
first matching rule wins; unmatched files are dropped; a matched file gains
the rule's bucket (through the lookup table), `url_path` (rule's value, else
the collection default, else empty) and `type` (rule's value, else empty). -/
def enrichByFirstRule (config : Config) (f : File) : Option File :=
  match config.collection.files.find? (fun r => r.regex f.name) with
  | none => none
  | some r => some { f with
      bucket := config.buckets r.bucket
      url_path := some (jsOrStr r.url_path (jsOrStr config.collection.url_path ""))
      type := some (jsOrStr r.type "") }

/-- Sample extraction pattern for concrete runs: the leading token of the
four known file names, as the first capturing group. -/
def sampleRe : String → Option String := fun s =>
  if s = "A1.dat" then some "A1"
  else if s = "A1.qa" then some "A1"
  else if s = "B2.dat" then some "B2"
  else if s = "null.dat" then some "null"
  else none

/-- Sample files. -/
def fA1dat : File := { name := "A1.dat" }

def fA1qa : File := { name := "A1.qa" }

def fB2dat : File := { name := "B2.dat" }

def fNull : File := { name := "null.dat" }

def fOther : File := { name := "other.bin" }

/-- A catalog in which granule `A1` exists and everything else is absent. -/
def catA1dup : Catalog := fun g =>
  if g = "A1" then CatalogResponse.success else CatalogResponse.notFound

/-- A catalog reporting every granule absent. -/
def catAbsent : Catalog := fun _ => CatalogResponse.notFound

/-- A catalog whose lookups all fail hard. -/
def catBoom : Catalog := fun _ => CatalogResponse.failure "boom"

/-- Sample rule list: `.dat` files of the sample set go to the internal
bucket typed `data`; the `.qa` file gets a dedicated `url_path`. -/
def sampleRules : List CollectionFileRule :=
  [ { regex := fun n => n = "A1.dat" || n = "B2.dat"
      bucket := "internal"
      type := some "data" },
    { regex := fun n => n = "A1.qa"
      bucket := "internal"
      url_path := some "qa-path" } ]

/-- Sample bucket lookup table. -/
def sampleBuckets : String → Option String := fun k =>
  if k = "internal" then some "bucket-internal" else none

/-- Sample config applying file rules (no ignore flag set anywhere). -/
def cfgRules : Config :=
  { buckets := sampleBuckets
    collection :=
      { granuleIdExtraction := sampleRe
        files := sampleRules
        url_path := some "default-path"
        dataType := "dt"
        version := "006" } }

/-- Sample config with the collection-level ignore flag set to `true`. -/
def cfgIgnore : Config :=
  { buckets := sampleBuckets
    collection :=
      { granuleIdExtraction := sampleRe
        files := sampleRules
        dataType := "dt"
        version := "006"
        ignoreFilesConfigForDiscovery := some true } }

/-- The granule the sample skip-policy run emits. -/
def gB2 : Granule :=
  { granuleId := "B2", dataType := "dt", version := "006", files := [fB2dat] }

/-- Extraction pattern capturing purely numeric granule ids. -/
def numRe : String → Option String := fun s =>
  if s = "f10.dat" then some "10"
  else if s = "f2.dat" then some "2"
  else none

/-- Files carrying numeric granule ids, listed with id `10` first. -/
def f10dat : File := { name := "f10.dat" }

def f2dat : File := { name := "f2.dat" }

/-- Config for the numeric-id run (pass-through enrichment). -/
def cfgNum : Config :=
  { buckets := sampleBuckets
    collection :=
      { granuleIdExtraction := numRe
        files := []
        dataType := "dt"
        version := "006"
        ignoreFilesConfigForDiscovery := some true } }

deriving instance DecidableEq for Except

/-- Splitting a successful `Except` bind into its two successful stages. -/
theorem except_bind_ok {α β : Type} {x : Except DiscoverError α}
    {f : α → Except DiscoverError β} {b : β} (h : (x >>= f) = .ok b) :
    ∃ a, x = .ok a ∧ f a = .ok b := by
  cases x with
  | error e => simp [Bind.bind, Except.bind] at h
  | ok a => exact ⟨a, rfl, by simpa [Bind.bind, Except.bind] using h⟩

/-- A failing first stage makes the whole `Except` bind fail. -/
theorem except_bind_error {α β : Type} {x : Except DiscoverError α}
    {f : α → Except DiscoverError β} {e : DiscoverError} (h : x = .error e) :
    (x >>= f) = .error e := by
  subst h; rfl

theorem mem_dedupKeys {k : String} : ∀ {ks : List String},
    k ∈ dedupKeys ks ↔ k ∈ ks := by
  intro ks
  induction ks with
  | nil => simp [dedupKeys]
  | cons k' ks ih =>
    simp only [dedupKeys, List.mem_cons, List.mem_filter, ih,
      decide_eq_true_eq]
    by_cases h : k = k' <;> simp [h]

theorem nodup_dedupKeys : ∀ (ks : List String), (dedupKeys ks).Nodup := by
  intro ks
  induction ks with
  | nil => simp [dedupKeys]
  | cons k' ks ih =>
    simp only [dedupKeys, List.nodup_cons, List.mem_filter]
    exact ⟨fun h => by simpa using h.2, ih.filter _⟩

theorem mem_insertKeyAsc {x s : String} : ∀ {ts : List String},
    x ∈ insertKeyAsc s ts ↔ x = s ∨ x ∈ ts := by
  intro ts
  induction ts with
  | nil => simp [insertKeyAsc]
  | cons t ts ih =>
    simp only [insertKeyAsc]
    by_cases h : numOfKey s ≤ numOfKey t
    · rw [if_pos h]
      simp [List.mem_cons]
    · rw [if_neg h]
      simp only [List.mem_cons, ih]
      tauto

theorem mem_sortKeysAsc {x : String} : ∀ {l : List String},
    x ∈ sortKeysAsc l ↔ x ∈ l := by
  intro l
  induction l with
  | nil => simp [sortKeysAsc]
  | cons s ss ih => simp [sortKeysAsc, mem_insertKeyAsc, ih]

/-- JS object key enumeration reorders but neither adds nor removes keys. -/
theorem mem_jsObjectKeys {x : String} {l : List String} :
    x ∈ jsObjectKeys l ↔ x ∈ l := by
  unfold jsObjectKeys
  simp only [List.mem_append, mem_sortKeysAsc, List.mem_filter]
  by_cases h : isArrayIndex x <;> simp [h]

theorem pairwise_insertKeyAsc {s : String} : ∀ {ts : List String},
    ts.Pairwise (fun a b => numOfKey a ≤ numOfKey b) →
    (insertKeyAsc s ts).Pairwise (fun a b => numOfKey a ≤ numOfKey b) := by
  intro ts
  induction ts with
  | nil =>
    intro _
    simp [insertKeyAsc]
  | cons t ts ih =>
    intro hp
    rw [List.pairwise_cons] at hp
    obtain ⟨hhead, htail⟩ := hp
    simp only [insertKeyAsc]
    by_cases hle : numOfKey s ≤ numOfKey t
    · rw [if_pos hle, List.pairwise_cons]
      refine ⟨?_, ?_⟩
      · intro x hx
        rcases List.mem_cons.mp hx with rfl | hx'
        · exact hle
        · exact le_trans hle (hhead x hx')
      · rw [List.pairwise_cons]
        exact ⟨hhead, htail⟩
    · rw [if_neg hle, List.pairwise_cons]
      refine ⟨?_, ih htail⟩
      intro x hx
      rcases mem_insertKeyAsc.mp hx with rfl | hx'
      · exact Nat.le_of_not_le hle
      · exact hhead x hx'

theorem pairwise_sortKeysAsc : ∀ (l : List String),
    (sortKeysAsc l).Pairwise (fun a b => numOfKey a ≤ numOfKey b) := by
  intro l
  induction l with
  | nil => simp [sortKeysAsc]
  | cons s ss ih => exact pairwise_insertKeyAsc ih

/-- A list already ascending by numeric key is a fixed point of the sort. -/
theorem sortKeysAsc_eq_of_pairwise : ∀ {l : List String},
    l.Pairwise (fun a b => numOfKey a ≤ numOfKey b) → sortKeysAsc l = l := by
  intro l
  induction l with
  | nil => intro _; rfl
  | cons s ss ih =>
    intro hp
    rw [List.pairwise_cons] at hp
    obtain ⟨hhead, htail⟩ := hp
    simp only [sortKeysAsc]
    rw [ih htail]
    cases ss with
    | nil => rfl
    | cons t ts =>
      simp only [insertKeyAsc]
      rw [if_pos (hhead t (List.mem_cons_self t ts))]

/-- Restricting an enumeration-ordered key list by a predicate leaves it in
enumeration order: re-assigning the surviving keys in that order into a
fresh object enumerates them identically. -/
theorem jsObjectKeys_filter_invariant {l : List String} {q : String → Bool} :
    jsObjectKeys ((jsObjectKeys l).filter q) = (jsObjectKeys l).filter q := by
  have hA : ∀ x ∈ sortKeysAsc (l.filter isArrayIndex), isArrayIndex x := by
    intro x hx
    exact (List.mem_filter.mp (mem_sortKeysAsc.mp hx)).2
  have hB : ∀ x ∈ l.filter (fun k => !(isArrayIndex k)), ¬(isArrayIndex x = true) := by
    intro x hx
    have := (List.mem_filter.mp hx).2
    simpa using this
  show jsObjectKeys
      ((sortKeysAsc (l.filter isArrayIndex)
          ++ l.filter (fun k => !(isArrayIndex k))).filter q) = _
  rw [List.filter_append]
  unfold jsObjectKeys
  rw [List.filter_append, List.filter_append]
  have h1 : ((sortKeysAsc (l.filter isArrayIndex)).filter q).filter isArrayIndex
      = (sortKeysAsc (l.filter isArrayIndex)).filter q :=
    List.filter_eq_self.mpr
      (fun x hx => hA x (List.mem_of_mem_filter hx))
  have h2 : ((l.filter (fun k => !(isArrayIndex k))).filter q).filter isArrayIndex
      = [] :=
    List.filter_eq_nil_iff.mpr
      (fun x hx => hB x (List.mem_of_mem_filter hx))
  have h3 : ((sortKeysAsc (l.filter isArrayIndex)).filter q).filter
        (fun k => !(isArrayIndex k)) = [] :=
    List.filter_eq_nil_iff.mpr
      (fun x hx h => by
        have := hA x (List.mem_of_mem_filter hx)
        simp [this] at h)
  have h4 : ((l.filter (fun k => !(isArrayIndex k))).filter q).filter
        (fun k => !(isArrayIndex k))
      = (l.filter (fun k => !(isArrayIndex k))).filter q :=
    List.filter_eq_self.mpr
      (fun x hx => by
        have := hB x (List.mem_of_mem_filter hx)
        simpa using this)
  rw [h1, h2, h3, h4, List.append_nil, List.nil_append]
  rw [sortKeysAsc_eq_of_pairwise
    ((pairwise_sortKeysAsc (l.filter isArrayIndex)).filter q)]
  rw [List.filter_append]

theorem mem_groupByKey {key : File → String} {files : List File}
    {p : String × List File} (hp : p ∈ groupByKey key files) :
    p.1 ∈ files.map key ∧ p.2 = files.filter (fun f => key f = p.1) := by
  unfold groupByKey at hp
  obtain ⟨k, hk, rfl⟩ := List.mem_map.mp hp
  exact ⟨mem_dedupKeys.mp (mem_jsObjectKeys.mp hk), rfl⟩

theorem map_fst_groupByKey {key : File → String} {files : List File} :
    (groupByKey key files).map Prod.fst
      = jsObjectKeys (dedupKeys (files.map key)) := by
  unfold groupByKey
  rw [List.map_map]
  exact List.map_id'' (fun x => rfl) _

/-- Filtering the keyed pairs by a predicate on the key commutes with the
pairing map. -/
theorem filter_map_pair (ks : List String) (files : List File)
    (key : File → String) (q : String → Bool) :
    ((ks.map (fun k => (k, files.filter (fun f => key f = k)))).filter
        (fun p => q p.1))
      = (ks.filter q).map (fun k => (k, files.filter (fun f => key f = k))) := by
  induction ks with
  | nil => rfl
  | cons k ks ih =>
    by_cases h : q k <;> simp [h, ih]

theorem find?_keyed (files : List File) (key : File → String) (g : String) :
    ∀ (ks : List String), g ∈ ks →
    ((ks.map (fun k => (k, files.filter (fun f => key f = k)))).find?
        (fun p => p.1 = g))
      = some (g, files.filter (fun f => key f = g)) := by
  intro ks
  induction ks with
  | nil => intro h; simp at h
  | cons k ks ih =>
    intro hg
    rw [List.map_cons]
    by_cases h : k = g
    · subst h
      apply List.find?_cons_of_pos
      simp
    · rw [List.find?_cons_of_neg]
      · exact ih ((List.mem_cons.mp hg).resolve_left (fun he => h he.symm))
      · simp [h]

/-- Every entry of `groupFilesByGranuleId` has a non-`"null"` key and carries
exactly the in-order sublist of input files with that group key. -/
theorem mem_groupFiles {granuleIdRegex : String → Option String}
    {files : List File} {p : String × List File}
    (hp : p ∈ groupFilesByGranuleId granuleIdRegex files) :
    p.1 ≠ "null" ∧ p.1 ∈ files.map (groupKeyOfFile granuleIdRegex)
      ∧ p.2 = files.filter (fun f => groupKeyOfFile granuleIdRegex f = p.1) := by
  unfold groupFilesByGranuleId at hp
  have h1 := List.mem_filter.mp hp
  have h2 := mem_groupByKey h1.1
  exact ⟨by simpa using h1.2, h2.1, h2.2⟩

/-- The grouped key list is the JS enumeration order of the deduplicated
computed keys, with the `"null"` key removed. -/
theorem map_fst_groupFiles {granuleIdRegex : String → Option String}
    {files : List File} :
    (groupFilesByGranuleId granuleIdRegex files).map Prod.fst
      = (jsObjectKeys (dedupKeys (files.map (groupKeyOfFile granuleIdRegex)))).filter
          (fun k => k ≠ "null") := by
  unfold groupFilesByGranuleId groupByKey
  rw [filter_map_pair
    (jsObjectKeys (dedupKeys (files.map (groupKeyOfFile granuleIdRegex)))) files
    (groupKeyOfFile granuleIdRegex) (fun k => k ≠ "null")]
  rw [List.map_map]
  exact List.map_id'' (fun x => rfl) _
/-- Injectivity of a pure/ok `Except` result. -/
theorem except_pure_ok {α : Type} {a b : α}
    (h : (pure a : Except DiscoverError α) = .ok b) : a = b :=
  Except.ok.inj h

/-- A successful lookup check yields either the id itself (no duplicate) or
the empty string (duplicate, non-`error` policy). -/
theorem checkDuplicate_ok_val {catalog : Catalog} {dh g r : String}
    (h : checkDuplicate catalog dh g = .ok r) : r = g ∨ r = "" := by
  cases hc : catalog g with
  | success =>
    simp only [checkDuplicate, hc] at h
    split at h
    · simp at h
    · simp at h
      exact Or.inr h.symm
  | notFound =>
    simp only [checkDuplicate, hc] at h
    simp at h
    exact Or.inl h.symm
  | failure msg =>
    simp only [checkDuplicate, hc] at h
    simp at h

/-- A successful `filterDuplicates` run returns exactly the non-empty input
ids whose check came back clean, in input order. -/
theorem filterDuplicates_ok_eq {catalog : Catalog} {dh : String} :
    ∀ {ids fk : List String}, filterDuplicates catalog ids dh = .ok fk →
    fk = ids.filter (fun k => checkDuplicate catalog dh k = .ok k ∧ k ≠ "") := by
  intro ids
  induction ids with
  | nil =>
    intro fk h
    have h' : (Except.ok [] : Except DiscoverError (List String)) = .ok fk := h
    simpa using (Except.ok.inj h').symm
  | cons k ks ih =>
    intro fk h
    have h1 : (checkAll catalog dh (k :: ks) >>= fun l =>
        (pure (l.filter (fun s => s ≠ "")) : Except DiscoverError (List String)))
        = .ok fk := h
    obtain ⟨l, hl, hpure⟩ := except_bind_ok h1
    have h2 : (checkDuplicate catalog dh k >>= fun r =>
        checkAll catalog dh ks >>= fun rs =>
        (pure (r :: rs) : Except DiscoverError (List String))) = .ok l := hl
    obtain ⟨r, hr, hrest⟩ := except_bind_ok h2
    obtain ⟨rs, hrs, hcons⟩ := except_bind_ok hrest
    have hlval : l = r :: rs := (except_pure_ok hcons).symm
    have hfk : fk = (r :: rs).filter (fun s => s ≠ "") := by
      rw [hlval] at hpure
      exact (except_pure_ok hpure).symm
    have hks : rs.filter (fun s => s ≠ "")
        = ks.filter (fun k' => checkDuplicate catalog dh k' = .ok k' ∧ k' ≠ "") := by
      have hfd : filterDuplicates catalog ks dh
          = .ok (rs.filter (fun s => s ≠ "")) := by
        show (checkAll catalog dh ks >>= fun l' =>
          (pure (l'.filter (fun s => s ≠ "")) : Except DiscoverError (List String))) = _
        rw [hrs]
        rfl
      exact ih hfd
    rcases checkDuplicate_ok_val hr with hval | hval
    · subst hval
      by_cases hk : r = ""
      · subst hk
        simp only [List.filter_cons] at hfk ⊢
        simpa [hfk] using hks
      · simp only [List.filter_cons] at hfk ⊢
        simp only [hfk, hk, hr]
        simpa [hk, hr] using hks
    · subst hval
      by_cases hk : k = ""
      · subst hk
        simp only [List.filter_cons] at hfk ⊢
        simpa [hfk] using hks
      · have hne : ¬(checkDuplicate catalog dh k = .ok k) := by
          rw [hr]
          intro hcontra
          exact hk (Except.ok.inj hcontra).symm
        simp only [List.filter_cons] at hfk ⊢
        simp only [hfk, hne]
        simpa [hne] using hks

/-- Under policy `error`, when no lookup fails hard, the join rejects with
the duplicate-conflict error for the first id (in position order) that the
catalog reports as existing. -/
theorem checkAll_error_dup {catalog : Catalog} {g : String} :
    ∀ {ids : List String},
    (∀ k ∈ ids, catalog k = .success ∨ catalog k = .notFound) →
    ids.find? (fun k => catalog k = CatalogResponse.success) = some g →
    checkAll catalog "error" ids = .error (.duplicateGranule g) := by
  intro ids
  induction ids with
  | nil =>
    intro _ hfind
    simp at hfind
  | cons k ks ih =>
    intro hall hfind
    rcases hall k (List.mem_cons_self k ks) with hk | hk
    · have hg : k = g := by
        rw [List.find?_cons_of_pos _ (by simp [hk])] at hfind
        exact Option.some.inj hfind
      have hchk : checkDuplicate catalog "error" k = .error (.duplicateGranule k) := by
        simp [checkDuplicate, hk]
      show (checkDuplicate catalog "error" k >>= fun r =>
        checkAll catalog "error" ks >>= fun rs =>
        (pure (r :: rs) : Except DiscoverError (List String)))
        = .error (.duplicateGranule g)
      rw [← hg]
      exact except_bind_error hchk
    · have hfind' : ks.find? (fun k' => catalog k' = CatalogResponse.success) = some g := by
        rwa [List.find?_cons_of_neg _ (by simp [hk])] at hfind
      have hchk : checkDuplicate catalog "error" k = .ok k := by
        simp [checkDuplicate, hk]
      have hrec := ih (fun k' hk' => hall k' (List.mem_cons_of_mem k hk')) hfind'
      show (checkDuplicate catalog "error" k >>= fun r =>
        checkAll catalog "error" ks >>= fun rs =>
        (pure (r :: rs) : Except DiscoverError (List String)))
        = .error (.duplicateGranule g)
      rw [hchk]
      show (checkAll catalog "error" ks >>= fun rs =>
        (pure (k :: rs) : Except DiscoverError (List String)))
        = .error (.duplicateGranule g)
      exact except_bind_error hrec

/-- A hard lookup failure for any id in the batch makes the whole join
reject: `checkAll` returns some error (possibly an earlier one). -/
theorem checkAll_error_of_failure {catalog : Catalog} {dh gid msg : String} :
    ∀ {ids : List String}, gid ∈ ids → catalog gid = .failure msg →
    ∃ e, checkAll catalog dh ids = .error e := by
  intro ids
  induction ids with
  | nil =>
    intro h _
    simp at h
  | cons k ks ih =>
    intro hmem hfail
    cases hchk : checkDuplicate catalog dh k with
    | error e =>
      refine ⟨e, ?_⟩
      show (checkDuplicate catalog dh k >>= fun r =>
        checkAll catalog dh ks >>= fun rs =>
        (pure (r :: rs) : Except DiscoverError (List String))) = .error e
      rw [hchk]
      rfl
    | ok r =>
      have hgk : gid ≠ k := by
        intro he
        subst he
        simp [checkDuplicate, hfail] at hchk
      have hmem' : gid ∈ ks := (List.mem_cons.mp hmem).resolve_left hgk
      obtain ⟨e, he⟩ := ih hmem' hfail
      refine ⟨e, ?_⟩
      show (checkDuplicate catalog dh k >>= fun r' =>
        checkAll catalog dh ks >>= fun rs =>
        (pure (r' :: rs) : Except DiscoverError (List String))) = .error e
      rw [hchk]
      show (checkAll catalog dh ks >>= fun rs =>
        (pure (r :: rs) : Except DiscoverError (List String))) = .error e
      rw [except_bind_error he]

/-- `buildGranule` stamps the granule with the id it was given. -/
theorem buildGranule_granuleId {config : Config} {fs : List File}
    {gid : String} {g : Granule} (h : buildGranule config fs gid = .ok g) :
    g.granuleId = gid := by
  unfold buildGranule at h
  split at h
  · rw [← except_pure_ok h]
  · obtain ⟨l, _, hpure⟩ := except_bind_ok h
    rw [← except_pure_ok hpure]

/-- A successful `buildAll` produces one granule per kept entry, carrying the
entry's key, in entry order. -/
theorem buildAll_map_fst {config : Config} :
    ∀ {kept : List (String × List File)} {res : List Granule},
    buildAll config kept = .ok res →
    res.map Granule.granuleId = kept.map Prod.fst := by
  intro kept
  induction kept with
  | nil =>
    intro res h
    have h' : (Except.ok [] : Except DiscoverError (List Granule)) = .ok res := h
    simp [← Except.ok.inj h']
  | cons p ps ih =>
    intro res h
    have h1 : (buildGranule config p.2 p.1 >>= fun g =>
        buildAll config ps >>= fun gs =>
        (pure (g :: gs) : Except DiscoverError (List Granule))) = .ok res := h
    obtain ⟨g, hg, hrest⟩ := except_bind_ok h1
    obtain ⟨gs, hgs, hcons⟩ := except_bind_ok hrest
    have hres : res = g :: gs := (except_pure_ok hcons).symm
    subst hres
    simp only [List.map_cons]
    rw [buildGranule_granuleId hg, ih hgs]

/-- When a key is present in the grouped map, `find?` on it succeeds. -/
theorem find?_of_mem_fst {m : List (String × List File)} {k : String}
    (hk : k ∈ m.map Prod.fst) :
    ∃ q, m.find? (fun p => p.1 = k) = some q := by
  induction m with
  | nil => simp at hk
  | cons p ps ih =>
    by_cases h : p.1 = k
    · exact ⟨p, List.find?_cons_of_pos _ (by simp [h])⟩
    · have hk' : k ∈ ps.map Prod.fst := by
        rcases List.mem_cons.mp hk with h' | h'
        · exact absurd h'.symm h
        · exact h'
      obtain ⟨q, hq⟩ := ih hk'
      exact ⟨q, by rw [List.find?_cons_of_neg _ (by simp [h]), hq]⟩

/-- Looking up a key list whose keys are all present in the map reproduces
the key list. -/
theorem map_fst_pickAux {m : List (String × List File)} :
    ∀ {ks : List String}, (∀ k ∈ ks, k ∈ m.map Prod.fst) →
    (ks.filterMap
        (fun k => (m.find? (fun p => p.1 = k)).map (fun p => (k, p.2)))).map Prod.fst
      = ks := by
  intro ks
  induction ks with
  | nil => intro _; rfl
  | cons k ks ih =>
    intro hsub
    obtain ⟨q, hq⟩ := find?_of_mem_fst (hsub k (List.mem_cons_self k ks))
    have h1 : (k :: ks).filterMap
        (fun k' => (m.find? (fun p => p.1 = k')).map (fun p => (k', p.2)))
        = (k, q.2) :: ks.filterMap
            (fun k' => (m.find? (fun p => p.1 = k')).map (fun p => (k', p.2))) := by
      simp [List.filterMap_cons, hq]
    rw [h1, List.map_cons,
      ih (fun k' hk' => hsub k' (List.mem_cons_of_mem k hk'))]

/-- `pick` restricted to keys present in the map returns entries keyed in
the JS enumeration order of the requested keys. -/
theorem map_fst_pick {m : List (String × List File)} {keys : List String}
    (hsub : ∀ k ∈ keys, k ∈ m.map Prod.fst) :
    (pick m keys).map Prod.fst = jsObjectKeys keys :=
  map_fst_pickAux (fun k hk => hsub k (mem_jsObjectKeys.mp hk))

/-- Filtering a list by membership in one of its own filterings reproduces
that filtering. -/
theorem filter_mem_filter {keys : List String} {p : String → Bool} :
    keys.filter (fun k => k ∈ keys.filter p) = keys.filter p := by
  apply List.filter_congr
  intro k hk
  show decide (k ∈ keys.filter p) = p k
  cases hp : p k
  · have hnm : ¬(k ∈ keys.filter p) := by
      intro hmem
      have := (List.mem_filter.mp hmem).2
      rw [hp] at this
      exact Bool.false_ne_true this
    simp [hnm]
  · have hm : k ∈ keys.filter p := List.mem_filter.mpr ⟨hk, hp⟩
    simp [hm]

/-- The filter-then-update pass of `buildGranule` computes exactly the
first-matching-rule enrichment, provided every rule's bucket key resolves. -/
theorem updateAll_enrich (config : Config)
    (hbk : ∀ r ∈ config.collection.files, (config.buckets r.bucket).isSome) :
    ∀ (files : List File),
    updateAll config
        (files.filter (fileHasCollectionFileConfig config.collection.files))
      = .ok (files.filterMap (enrichByFirstRule config)) := by
  intro files
  induction files with
  | nil => rfl
  | cons f fs ih =>
    cases hc : config.collection.files.find? (fun r => r.regex f.name) with
    | none =>
      have hhas : fileHasCollectionFileConfig config.collection.files f = false := by
        simp [fileHasCollectionFileConfig, getCollectionFileConfig, hc]
      have hen : enrichByFirstRule config f = none := by
        simp [enrichByFirstRule, hc]
      rw [List.filter_cons, List.filterMap_cons_none hen]
      simp only [hhas, Bool.false_eq_true, if_false]
      exact ih
    | some r =>
      have hmem := List.mem_of_find?_eq_some hc
      obtain ⟨bn, hbn⟩ := Option.isSome_iff_exists.mp (hbk r hmem)
      have hhas : fileHasCollectionFileConfig config.collection.files f = true := by
        simp [fileHasCollectionFileConfig, getCollectionFileConfig, hc]
      have hen : enrichByFirstRule config f = some { f with
          bucket := some bn
          url_path := some (jsOrStr r.url_path (jsOrStr config.collection.url_path ""))
          type := some (jsOrStr r.type "") } := by
        simp [enrichByFirstRule, hc, hbn]
      have hupd : updateFileFromCollectionFileConfig config f = .ok { f with
          bucket := some bn
          url_path := some (jsOrStr r.url_path (jsOrStr config.collection.url_path ""))
          type := some (jsOrStr r.type "") } := by
        simp [updateFileFromCollectionFileConfig, getCollectionFileConfig, hc, hbn]
      rw [List.filter_cons, List.filterMap_cons_some hen]
      simp only [hhas, if_true]
      show (updateFileFromCollectionFileConfig config f >>= fun f' =>
        updateAll config
          (fs.filter (fileHasCollectionFileConfig config.collection.files))
          >>= fun fs' =>
        (pure (f' :: fs') : Except DiscoverError (List File))) = _
      rw [hupd]
      show (updateAll config
          (fs.filter (fileHasCollectionFileConfig config.collection.files))
          >>= fun fs' =>
        (pure ({ f with
            bucket := some bn
            url_path := some (jsOrStr r.url_path (jsOrStr config.collection.url_path ""))
            type := some (jsOrStr r.type "") } :: fs')
          : Except DiscoverError (List File))) = _
      rw [ih]
      rfl

/-- When every lookup answers cleanly (exists / not-found), the skip-policy
join succeeds. -/
theorem checkAll_ok_of_clean {catalog : Catalog} :
    ∀ {ids : List String},
    (∀ k ∈ ids, catalog k = CatalogResponse.success ∨ catalog k = CatalogResponse.notFound) →
    ∃ rs, checkAll catalog "skip" ids = .ok rs := by
  intro ids
  induction ids with
  | nil => intro _; exact ⟨[], rfl⟩
  | cons k ks ih =>
    intro hall
    obtain ⟨rs, hrs⟩ := ih (fun k' hk' => hall k' (List.mem_cons_of_mem k hk'))
    have hchk : ∃ r, checkDuplicate catalog "skip" k = .ok r := by
      rcases hall k (List.mem_cons_self k ks) with h | h
      · exact ⟨"", by simp [checkDuplicate, h]⟩
      · exact ⟨k, by simp [checkDuplicate, h]⟩
    obtain ⟨r, hr⟩ := hchk
    refine ⟨r :: rs, ?_⟩
    show (checkDuplicate catalog "skip" k >>= fun r' =>
      checkAll catalog "skip" ks >>= fun rs' =>
      (pure (r' :: rs') : Except DiscoverError (List String))) = .ok (r :: rs)
    rw [hr]
    show (checkAll catalog "skip" ks >>= fun rs' =>
      (pure (r :: rs') : Except DiscoverError (List String))) = .ok (r :: rs)
    rw [hrs]
    rfl

/-- C2 counterexample: the claim predicts that an empty-string identifier
confirmed absent by the catalog is kept, but the final truthiness filter
removes it: on input `[""]` with an all-absent catalog, skip-policy
resolution does not return `[""]`. -/
theorem skipPolicy_emptyId_cex :
    filterDuplicates catAbsent [""] "skip" ≠ .ok [""] := by
  intro h
  have h' : filterDuplicates catAbsent [""] "skip" = .ok [] := rfl
  rw [h'] at h
  exact List.cons_ne_nil "" [] (Except.ok.inj h).symm

/-- C2 (amended): under policy `skip`, when every identifier's lookup reports
exists or not-found, resolution returns exactly the non-empty identifiers
confirmed absent, in input order; membership in the result is therefore
exactly "in the input, reported absent, and non-empty", independent of input
order. -/
theorem skipPolicy_complement (catalog : Catalog) (ids : List String)
    (hall : ∀ k ∈ ids, catalog k = CatalogResponse.success ∨ catalog k = CatalogResponse.notFound) :
    filterDuplicates catalog ids "skip"
      = .ok (ids.filter (fun k => catalog k = CatalogResponse.notFound ∧ k ≠ ""))
    ∧ ∀ k, k ∈ ids.filter (fun k => catalog k = CatalogResponse.notFound ∧ k ≠ "")
        ↔ (k ∈ ids ∧ catalog k = CatalogResponse.notFound ∧ k ≠ "") := by
  constructor
  · obtain ⟨rs, hrs⟩ := checkAll_ok_of_clean hall
    have hok : filterDuplicates catalog ids "skip"
        = .ok (rs.filter (fun s => s ≠ "")) := by
      show (checkAll catalog "skip" ids >>= fun l =>
        (pure (l.filter (fun s => s ≠ "")) : Except DiscoverError (List String))) = _
      rw [hrs]
      rfl
    rw [hok, filterDuplicates_ok_eq hok]
    apply congrArg Except.ok
    apply List.filter_congr
    intro k hk
    rcases hall k hk with h | h
    · have hc : checkDuplicate catalog "skip" k = .ok "" := by
        simp [checkDuplicate, h]
      by_cases hke : k = ""
      · subst hke
        simp
      · have hne : ¬(checkDuplicate catalog "skip" k = .ok k) := by
          rw [hc]
          intro hx
          exact hke (Except.ok.inj hx).symm
        simp [hne, h]
    · have hc : checkDuplicate catalog "skip" k = .ok k := by
        simp [checkDuplicate, h]
      simp [hc, h]
  · intro k
    simp [List.mem_filter]

/-- C10: under an active duplicate-checking policy, the empty-string
identifier never survives into the kept list, no matter what the catalog
answered for it. -/
theorem emptyId_removed (catalog : Catalog) (ids fk : List String) (dh : String)
    (_hdh : dh = "skip" ∨ dh = "error")
    (h : filterDuplicates catalog ids dh = .ok fk) : "" ∉ fk := by
  rw [filterDuplicates_ok_eq h]
  intro hmem
  have := (List.mem_filter.mp hmem).2
  simp at this

/-- C10 witness: on input `["", "B2"]` against a catalog reporting both
absent for the empty id and `B2` absent, the kept list is `["B2"]` and does
not contain the empty string. -/
theorem emptyId_removed_witness : "" ∉ (["B2"] : List String) :=
  emptyId_removed catA1dup ["", "B2"] ["B2"] "skip" (Or.inl rfl) rfl

/-- C7: a not-found lookup answer keeps the identifier; a hard lookup
failure surfaces as a transport error from the check, and the presence of
any hard-failing identifier in the batch means the batch never returns a
success result. -/
theorem lookup_notFound_vs_failure (catalog : Catalog) (dh gid : String) :
    (catalog gid = CatalogResponse.notFound →
      checkDuplicate catalog dh gid = .ok gid)
    ∧ (∀ msg, catalog gid = CatalogResponse.failure msg →
      checkDuplicate catalog dh gid = .error (.transport msg))
    ∧ (∀ ids : List String, gid ∈ ids →
      ∀ msg, catalog gid = CatalogResponse.failure msg →
      ∀ res, filterDuplicates catalog ids dh ≠ .ok res) := by
  refine ⟨?_, ?_, ?_⟩
  · intro h
    simp [checkDuplicate, h]
  · intro msg h
    simp [checkDuplicate, h]
  · intro ids hmem msg hfail res hok
    obtain ⟨e, he⟩ := checkAll_error_of_failure hmem hfail
    have herr : filterDuplicates catalog ids dh = .error e := except_bind_error he
    rw [herr] at hok
    exact Except.noConfusion hok

/-- C7 witness: concrete checks of all three conjuncts (absent id kept,
hard failure surfaced as transport error, failing batch never succeeds). -/
theorem lookup_notFound_vs_failure_witness :
    checkDuplicate catAbsent "skip" "A1" = .ok "A1"
    ∧ checkDuplicate catBoom "skip" "A1" = .error (.transport "boom")
    ∧ filterDuplicates catBoom ["A1"] "skip" ≠ .ok [] :=
  ⟨(lookup_notFound_vs_failure catAbsent "skip" "A1").1 rfl,
   (lookup_notFound_vs_failure catBoom "skip" "A1").2.1 "boom" rfl,
   (lookup_notFound_vs_failure catBoom "skip" "A1").2.2 ["A1"] (by decide) "boom" rfl []⟩

/-- C5: when the ignore-file-rules override resolves to true, `buildGranule`
passes the group's files through unchanged; and the override is the explicit
top-level boolean when set, else the explicit collection-level boolean when
set, else false. -/
theorem passthrough_override (config : Config) :
    (returnAllFiles config = true → ∀ (files : List File) (gid : String),
      buildGranule config files gid = .ok
        { granuleId := gid
          dataType := config.collection.dataType
          version := config.collection.version
          files := files })
    ∧ (∀ b, config.ignoreFilesConfigForDiscovery = some b →
        returnAllFiles config = b)
    ∧ (config.ignoreFilesConfigForDiscovery = none →
        ∀ b, config.collection.ignoreFilesConfigForDiscovery = some b →
        returnAllFiles config = b)
    ∧ (config.ignoreFilesConfigForDiscovery = none →
        config.collection.ignoreFilesConfigForDiscovery = none →
        returnAllFiles config = false) := by
  refine ⟨?_, ?_, ?_, ?_⟩
  · intro hra files gid
    unfold buildGranule
    rw [hra, if_pos rfl]
    rfl
  · intro b hb
    simp [returnAllFiles, hb]
  · intro h1 b hb
    simp [returnAllFiles, h1, hb]
  · intro h1 h2
    simp [returnAllFiles, h1, h2]

/-- C5 witness: with the collection-level flag set to true (top-level flag
absent), a group containing a file matching no rule passes through intact. -/
theorem passthrough_override_witness :
    buildGranule cfgIgnore [fA1dat, fOther] "A1" = .ok
      { granuleId := "A1", dataType := "dt", version := "006"
        files := [fA1dat, fOther] } :=
  (passthrough_override cfgIgnore).1 rfl [fA1dat, fOther] "A1"

/-- C6: under policy `replace` or `version`, duplicate handling returns the
grouped map unchanged (for every catalog, so the result cannot depend on any
lookup) and issues no credential fetch and no catalog lookup. -/
theorem replaceVersion_noop (catalog : Catalog)
    (filesByGranuleId : List (String × List File)) (dh : String)
    (h : dh = "replace" ∨ dh = "version") :
    handleDuplicates catalog filesByGranuleId dh = .ok filesByGranuleId
    ∧ handleDuplicatesEffects filesByGranuleId dh = [] := by
  rcases h with h | h <;> subst h <;> exact ⟨rfl, rfl⟩

/-- C6 witness: concrete `replace` run over a one-granule map against a
catalog that would have reported a duplicate. -/
theorem replaceVersion_noop_witness :
    handleDuplicates catA1dup [("A1", [fA1dat])] "replace"
      = .ok [("A1", [fA1dat])]
    ∧ handleDuplicatesEffects [("A1", [fA1dat])] "replace" = [] :=
  replaceVersion_noop catA1dup [("A1", [fA1dat])] "replace" (Or.inl rfl)

/-- C4: with the override false and every rule's bucket key present in the
lookup table, `buildGranule` drops each file matching no rule and maps each
file matching rule *i* (and no earlier rule) to exactly rule *i*'s values:
bucket through the lookup table from the rule's bucket key, `url_path` the
rule's value, else the collection default, else empty, and `type` the rule's
value, else empty. -/
theorem enrichment_firstRule (config : Config) (files : List File)
    (gid : String) (hov : returnAllFiles config = false)
    (hbk : ∀ r ∈ config.collection.files, (config.buckets r.bucket).isSome) :
    buildGranule config files gid = .ok
      { granuleId := gid
        dataType := config.collection.dataType
        version := config.collection.version
        files := files.filterMap (enrichByFirstRule config) } := by
  unfold buildGranule
  rw [hov, if_neg Bool.false_ne_true, updateAll_enrich config hbk files]
  rfl

/-- C4 witness: the `.dat` file takes the first rule's bucket/type with the
collection default `url_path`, the `.qa` file takes the second rule's
`url_path` with empty type, and the unmatched file is dropped. -/
theorem enrichment_firstRule_witness :
    buildGranule cfgRules [fA1dat, fA1qa, fOther] "A1" = .ok
      { granuleId := "A1", dataType := "dt", version := "006"
        files := [
          { name := "A1.dat", bucket := some "bucket-internal"
            url_path := some "default-path", type := some "data" },
          { name := "A1.qa", bucket := some "bucket-internal"
            url_path := some "qa-path", type := some "" } ] } := by
  rw [enrichment_firstRule cfgRules [fA1dat, fA1qa, fOther] "A1" rfl (by decide)]
  rfl

/-- C1: under policy `error`, when every grouped key's lookup answers
cleanly and some key exists in the catalog, the whole discovery run fails
with the duplicate-conflict error naming the first (in key insertion order)
existing key; no granule list is returned. -/
theorem errorPolicy_atomic_failure (catalog : Catalog) (config : Config)
    (files : List File) (g : String)
    (hall : ∀ k ∈ (groupFilesByGranuleId config.collection.granuleIdExtraction files).map Prod.fst,
      catalog k = CatalogResponse.success ∨ catalog k = CatalogResponse.notFound)
    (hfind : ((groupFilesByGranuleId config.collection.granuleIdExtraction files).map Prod.fst).find?
        (fun k => catalog k = CatalogResponse.success) = some g) :
    discoverGranules catalog config "error" files
      = .error (.duplicateGranule g) := by
  have hca := checkAll_error_dup hall hfind
  have hfd : filterDuplicates catalog
      ((groupFilesByGranuleId config.collection.granuleIdExtraction files).map Prod.fst)
      "error" = .error (.duplicateGranule g) := except_bind_error hca
  have hhd : handleDuplicates catalog
      (groupFilesByGranuleId config.collection.granuleIdExtraction files)
      "error" = .error (.duplicateGranule g) := by
    unfold handleDuplicates
    rw [if_pos (Or.inr rfl)]
    exact except_bind_error hfd
  show (handleDuplicates catalog
      (groupFilesByGranuleId config.collection.granuleIdExtraction files)
      "error" >>= fun kept => buildAll config kept) = _
  exact except_bind_error hhd

/-- C1 witness: with `A1` existing in the catalog, an error-policy run over
files grouping to keys `A1` and `B2` fails atomically naming `A1`. -/
theorem errorPolicy_atomic_failure_witness :
    discoverGranules catA1dup cfgIgnore "error" [fA1dat, fB2dat]
      = .error (.duplicateGranule "A1") :=
  errorPolicy_atomic_failure catA1dup cfgIgnore [fA1dat, fB2dat] "A1"
    (by decide) (by decide)

/-- C3 counterexample: a file whose name matches the pattern with first
capture the literal string `"null"` is placed in no group at all (the
grouped result is empty and has no entry keyed `"null"`), contradicting the
claim that every matching file lands in exactly one group. -/
theorem classification_nullCapture_cex :
    granuleIdOfFile sampleRe fNull = some "null"
    ∧ groupFilesByGranuleId sampleRe [fNull] = []
    ∧ (groupFilesByGranuleId sampleRe [fNull]).find? (fun p => p.1 = "null")
        = none :=
  ⟨rfl, by decide, by decide⟩

/-- C3 (amended): every file whose name matches the pattern with a captured
identifier other than the literal string `"null"` appears in exactly one
group — the one keyed by its identifier, holding the in-order sublist of
matching files — files whose name does not match appear in no group, and no
null-keyed group appears. -/
theorem classification_grouping (granuleIdRegex : String → Option String)
    (files : List File) :
    (∀ f ∈ files, ∀ g, granuleIdOfFile granuleIdRegex f = some g → g ≠ "null" →
      ((groupFilesByGranuleId granuleIdRegex files).find? (fun p => p.1 = g)
          = some (g, files.filter (fun f' => groupKeyOfFile granuleIdRegex f' = g))
        ∧ f ∈ files.filter (fun f' => groupKeyOfFile granuleIdRegex f' = g)
        ∧ ∀ p ∈ groupFilesByGranuleId granuleIdRegex files, f ∈ p.2 → p.1 = g))
    ∧ (∀ f ∈ files, granuleIdOfFile granuleIdRegex f = none →
        ∀ p ∈ groupFilesByGranuleId granuleIdRegex files, f ∉ p.2)
    ∧ (∀ p ∈ groupFilesByGranuleId granuleIdRegex files, p.1 ≠ "null") := by
  refine ⟨?_, ?_, fun p hp => (mem_groupFiles hp).1⟩
  · intro f hf g hg hnn
    have hkey : groupKeyOfFile granuleIdRegex f = g := by
      simp [groupKeyOfFile, hg]
    refine ⟨?_, ?_, ?_⟩
    · unfold groupFilesByGranuleId groupByKey
      rw [filter_map_pair
        (jsObjectKeys (dedupKeys (files.map (groupKeyOfFile granuleIdRegex)))) files
        (groupKeyOfFile granuleIdRegex) (fun k => k ≠ "null")]
      apply find?_keyed
      rw [List.mem_filter]
      refine ⟨mem_jsObjectKeys.mpr
        (mem_dedupKeys.mpr (List.mem_map.mpr ⟨f, hf, hkey⟩)), by simp [hnn]⟩
    · exact List.mem_filter.mpr ⟨hf, by simp [hkey]⟩
    · intro p hp hfp
      obtain ⟨_, _, hpe⟩ := mem_groupFiles hp
      rw [hpe] at hfp
      have hk2 := (List.mem_filter.mp hfp).2
      simp at hk2
      rw [← hk2]
      exact hkey
  · intro f hf hnone p hp hfp
    obtain ⟨hpn, _, hpe⟩ := mem_groupFiles hp
    rw [hpe] at hfp
    have hk2 := (List.mem_filter.mp hfp).2
    simp at hk2
    have hkey : groupKeyOfFile granuleIdRegex f = "null" := by
      simp [groupKeyOfFile, hnone]
    rw [hkey] at hk2
    exact hpn hk2.symm

/-- C3 witness: in a concrete run the two `A1` files form the single group
keyed `A1`, in listing order. -/
theorem classification_grouping_witness :
    (groupFilesByGranuleId sampleRe [fA1dat, fB2dat, fA1qa]).find?
        (fun p => p.1 = "A1")
      = some ("A1", [fA1dat, fA1qa]) := by
  have h := ((classification_grouping sampleRe [fA1dat, fB2dat, fA1qa]).1
    fA1dat (by decide) "A1" rfl (by decide)).1
  rw [h]
  decide

/-- C9: a file whose name matches the pattern but whose first capture is the
literal string `"null"` is excluded from every group of the classification
result (its whole group is deleted by the null-key removal). -/
theorem nullKey_deleted (granuleIdRegex : String → Option String)
    (files : List File) (f : File) (_hf : f ∈ files)
    (hm : granuleIdOfFile granuleIdRegex f = some "null") :
    ∀ p ∈ groupFilesByGranuleId granuleIdRegex files, f ∉ p.2 := by
  intro p hp hfp
  obtain ⟨hpn, _, hpe⟩ := mem_groupFiles hp
  rw [hpe] at hfp
  have hk2 := (List.mem_filter.mp hfp).2
  simp at hk2
  have hkey : groupKeyOfFile granuleIdRegex f = "null" := by
    simp [groupKeyOfFile, hm]
  rw [hkey] at hk2
  exact hpn hk2.symm

/-- C9 witness: with files capturing `null` and `A1`, the only surviving
group is `A1`'s, and the null-capturing file is not in it. -/
theorem nullKey_deleted_witness : fNull ∉ [fA1dat] :=
  nullKey_deleted sampleRe [fNull, fA1dat] fNull (by decide) rfl
    ("A1", [fA1dat]) (by decide)

/-- C8 (amended): a successful discovery run emits granule ids in the JS
object enumeration order of the grouped keys — integer-like keys ascending
first, then the remaining keys in classification insertion order —
restricted to the surviving keys (the emitted id list equals the grouped key
list filtered by membership in itself), and the emitted ids are exactly the
keys kept by duplicate resolution, in kept order. -/
theorem orchestrator_order (catalog : Catalog) (config : Config) (dh : String)
    (files : List File) (res : List Granule)
    (h : discoverGranules catalog config dh files = .ok res) :
    res.map Granule.granuleId
      = ((groupFilesByGranuleId config.collection.granuleIdExtraction files).map Prod.fst).filter
          (fun k => k ∈ res.map Granule.granuleId)
    ∧ ∀ kept, handleDuplicates catalog
        (groupFilesByGranuleId config.collection.granuleIdExtraction files) dh
        = .ok kept →
      res.map Granule.granuleId = kept.map Prod.fst := by
  have h' : (handleDuplicates catalog
      (groupFilesByGranuleId config.collection.granuleIdExtraction files) dh
      >>= fun kept => buildAll config kept) = .ok res := h
  obtain ⟨kept, hkept, hbuild⟩ := except_bind_ok h'
  have hres : res.map Granule.granuleId = kept.map Prod.fst :=
    buildAll_map_fst hbuild
  have hmain : kept.map Prod.fst
      = ((groupFilesByGranuleId config.collection.granuleIdExtraction files).map Prod.fst).filter
          (fun k => k ∈ kept.map Prod.fst) := by
    by_cases hdh : dh = "skip" ∨ dh = "error"
    · unfold handleDuplicates at hkept
      rw [if_pos hdh] at hkept
      obtain ⟨fk, hfk, hpick⟩ := except_bind_ok hkept
      have hkeptval : kept
          = pick (groupFilesByGranuleId config.collection.granuleIdExtraction files) fk :=
        (except_pure_ok hpick).symm
      have hfkeq := filterDuplicates_ok_eq hfk
      have hsub : ∀ k ∈ fk,
          k ∈ (groupFilesByGranuleId config.collection.granuleIdExtraction files).map Prod.fst := by
        rw [hfkeq]
        intro k hk
        exact (List.mem_filter.mp hk).1
      have hpickfst : kept.map Prod.fst = jsObjectKeys fk := by
        rw [hkeptval]
        exact map_fst_pick hsub
      have hfix : jsObjectKeys fk = fk := by
        rw [hfkeq, map_fst_groupFiles, List.filter_filter]
        exact jsObjectKeys_filter_invariant
      rw [hpickfst, hfix, hfkeq]
      exact filter_mem_filter.symm
    · by_cases hdh2 : dh = "replace" ∨ dh = "version"
      · have hkeptval : kept
            = groupFilesByGranuleId config.collection.granuleIdExtraction files := by
          unfold handleDuplicates at hkept
          rw [if_neg hdh, if_pos hdh2] at hkept
          exact (Except.ok.inj hkept).symm
        rw [hkeptval]
        exact (List.filter_eq_self.mpr (fun k hk => by simp [hk])).symm
      · exfalso
        unfold handleDuplicates at hkept
        rw [if_neg hdh, if_neg hdh2] at hkept
        exact Except.noConfusion hkept
  refine ⟨by rw [hres]; exact hmain, ?_⟩
  intro kept' hk'
  have hkk : kept = kept' := Except.ok.inj (hkept.symm.trans hk')
  rw [hres, hkk]

/-- C8 witness: a concrete skip-policy run in which `A1` is filtered out
emits exactly the granule for `B2`, matching the grouped key order
restricted to survivors. -/
theorem orchestrator_order_witness :
    [gB2].map Granule.granuleId
      = ((groupFilesByGranuleId cfgIgnore.collection.granuleIdExtraction
            [fA1dat, fB2dat]).map Prod.fst).filter
          (fun k => k ∈ [gB2].map Granule.granuleId) :=
  (orchestrator_order catA1dup cfgIgnore "skip" [fA1dat, fB2dat] [gB2]
    (by decide)).1

/-- C2 witness: with `A1` existing and `B2` absent, a skip-policy run over
`["B2", "A1"]` keeps exactly `B2`. -/
theorem skipPolicy_complement_witness :
    filterDuplicates catA1dup ["B2", "A1"] "skip" = .ok ["B2"] := by
  rw [(skipPolicy_complement catA1dup ["B2", "A1"] (by decide)).1]
  decide

/-- C8 counterexample: with purely numeric granule ids listed as `10` then
`2`, classification insertion order is `["10", "2"]`, every key survives
(policy `replace`), yet the run emits the granules as `2` then `10` — the
plain-object enumeration puts integer-like keys in ascending numeric order,
not insertion order. -/
theorem orchestrator_insertionOrder_cex :
    (dedupKeys ([f10dat, f2dat].map (groupKeyOfFile numRe))).filter
        (fun k => k ≠ "null") = ["10", "2"]
    ∧ discoverGranules catAbsent cfgNum "replace" [f10dat, f2dat]
        = .ok
          [ { granuleId := "2", dataType := "dt", version := "006"
              files := [f2dat] },
            { granuleId := "10", dataType := "dt", version := "006"
              files := [f10dat] } ]
    ∧ (["2", "10"] : List String) ≠ ["10", "2"] :=
  ⟨by decide, by decide, by decide⟩
